import Mathlib

/-!
Shallow embedding of the resilient fetch-and-aggregate core of
`llama_pypi_scraper.py` (the `llamasearchai/llamax` repository), together with
theorems settling the frozen claims C1..C10 about its specification.

Conventions of the embedding:
* Python strings are Lean `String`s; the Python `str` methods the code uses
  (`lower`, `strip`, `split`, the `in` substring test) are re-implemented over
  `List Char` with structural recursion so that every definition evaluates by
  `decide`/`rfl`.  They model CPython behaviour on the ASCII data this code
  handles.
* Network nondeterminism is made explicit: a fetch call is parameterised by a
  stream `Nat → AttemptOutcome` giving the outcome of each successive HTTP
  attempt, and the browser collaborator is a function `String → Option String`.
* Exceptions crossing a boundary are `Except` errors; a Python function that
  catches everything and returns a value is a total Lean function.
-/

/-! ## Python string helpers (ASCII models of the `str` methods used) -/

/-- Models Python `str.lower` on ASCII strings (`Char.toLower` lowercases
exactly the ASCII uppercase letters). -/
def pyLower (s : String) : String := String.mk (s.toList.map Char.toLower)

/-- The six ASCII whitespace characters stripped by Python `str.strip()`. -/
def pySpace (c : Char) : Bool :=
  c == ' ' || c == '\t' || c == '\n' || c == '\r' || c.toNat == 11 || c.toNat == 12

/-- Models Python `str.strip()` (no arguments): drop leading and trailing
whitespace. -/
def pyStrip (s : String) : String :=
  String.mk (((s.toList.dropWhile pySpace).reverse.dropWhile pySpace).reverse)

/-- `containsSub needle hay` decides whether `needle` occurs as a contiguous
substring of `hay`, modelling Python's `needle in hay`. -/
def containsSub (needle : List Char) : List Char → Bool
  | [] => needle.isEmpty
  | c :: rest => needle.isPrefixOf (c :: rest) || containsSub needle rest

/-- Models the Python substring test `needle in hay`. -/
def pyIn (needle hay : String) : Bool := containsSub needle.toList hay.toList

/-- Models Python `s.split(sep)` for a one-character separator `sep`. -/
def splitChar (sep : Char) : List Char → List (List Char)
  | [] => [[]]
  | c :: rest =>
    match splitChar sep rest with
    | [] => [[]]
    | g :: gs => if c = sep then [] :: g :: gs else (c :: g) :: gs

/-- Numeric value of a list of ASCII digits, modelling Python `int` on a digit
string (so `int("007") = 7`). -/
def natOfDigits (l : List Char) : Nat :=
  l.foldl (fun acc c => acc * 10 + (c.toNat - 48)) 0

/-! ## Global constants of the source module -/

/-- Source constant `REQUEST_RETRIES = 3`. -/
def REQUEST_RETRIES : Nat := 3

/-- Source constant `REQUEST_RETRY_DELAY = 1` (time units). -/
def REQUEST_RETRY_DELAY : Nat := 1

/-- Source constant `MAX_WORKERS = 5` (the fixed thread-pool size of
`bulk_analyze`; it bounds scheduling only and does not influence which
records are produced). -/
def MAX_WORKERS : Nat := 5

/-! ## The fetch layer: `LlamaPyPIScraper.fetch_with_retry` -/

/-- The part of a `requests.Response` the fetch layer inspects: HTTP status and
body text.  The browser-fallback path fabricates one of these with a synthetic
status 200 (`MockResponse` in the source). -/
structure Response where
  status_code : Nat
  text : String
deriving DecidableEq, Repr

/-- The outcome the environment produces for one HTTP attempt:
either the transport raised a `requests.RequestException`
(connection error, timeout, ...) carrying a message, or a `Response` came
back (possibly with an error status). -/
inductive AttemptOutcome where
  | connError (msg : String)
  | response (r : Response)
deriving DecidableEq, Repr

/-- Models `requests.Response.raise_for_status`, which raises `HTTPError`
(a `RequestException`) exactly for statuses 400..599. -/
def isErrorStatus (s : Nat) : Bool := 400 ≤ s && s < 600

/-- An attempt fails (lands in the `except requests.RequestException` handler)
iff the transport raised or `raise_for_status` raised on an error status. -/
def failsAttempt (o : AttemptOutcome) : Bool :=
  match o with
  | AttemptOutcome.connError _ => true
  | AttemptOutcome.response r => isErrorStatus r.status_code

/-- The method dispatch of `fetch_with_retry`: `method.lower()` must be
`"get"` or `"post"`, otherwise `ValueError` is raised. -/
def methodValid (method : String) : Bool :=
  pyLower method == "get" || pyLower method == "post"

/-- Decidable equality of `Except` values, needed to evaluate fetch results in
concrete scenarios. -/
instance {ε α : Type _} [DecidableEq ε] [DecidableEq α] : DecidableEq (Except ε α) :=
  fun x y =>
    match x, y with
    | Except.ok a, Except.ok b =>
      if h : a = b then isTrue (by rw [h]) else isFalse (fun hh => by cases hh; exact h rfl)
    | Except.error a, Except.error b =>
      if h : a = b then isTrue (by rw [h]) else isFalse (fun hh => by cases hh; exact h rfl)
    | Except.ok _, Except.error _ => isFalse (fun hh => by cases hh)
    | Except.error _, Except.ok _ => isFalse (fun hh => by cases hh)

/-- What one call of `fetch_with_retry` did: the returned value (`Except.error`
models an exception escaping the method, `Except.ok none` models `return None`),
the number of HTTP requests issued, and the list of retry sleeps
(`time.sleep(REQUEST_RETRY_DELAY * (attempt + 1))`) performed, in order. -/
structure FetchTrace where
  result : Except String (Option Response)
  attempts : Nat
  sleeps : List Nat
deriving DecidableEq, Repr

/-- The retry loop `for attempt in range(REQUEST_RETRIES)` of
`fetch_with_retry`, started at attempt index `i` with `r` iterations left.
Each iteration: dispatch on the method (an unsupported method raises
`ValueError`, which the `except requests.RequestException` clause does not
catch), perform the attempt, return the response if `raise_for_status` does
not raise; on a caught `RequestException`, sleep
`REQUEST_RETRY_DELAY * (attempt + 1)` and continue unless this was the last
attempt, in which case return `None`. -/
def retryGo (method : String) (outcomes : Nat → AttemptOutcome) :
    Nat → Nat → FetchTrace
  | _, 0 => ⟨Except.ok none, 0, []⟩
  | i, r + 1 =>
    if methodValid method then
      match outcomes i with
      | AttemptOutcome.response resp =>
        if isErrorStatus resp.status_code then
          if r = 0 then ⟨Except.ok none, 1, []⟩
          else
            let t := retryGo method outcomes (i + 1) r
            ⟨t.result, t.attempts + 1, REQUEST_RETRY_DELAY * (i + 1) :: t.sleeps⟩
        else ⟨Except.ok (some resp), 1, []⟩
      | AttemptOutcome.connError _ =>
        if r = 0 then ⟨Except.ok none, 1, []⟩
        else
          let t := retryGo method outcomes (i + 1) r
          ⟨t.result, t.attempts + 1, REQUEST_RETRY_DELAY * (i + 1) :: t.sleeps⟩
    else ⟨Except.error ("Unsupported HTTP method: " ++ method), 0, []⟩

/-- The scraper state `fetch_with_retry` consults: `self.browser` is `some bf`
when browser automation is configured, where `bf url` models
`BrowserAutomation.fetch_with_browser(url)` (`none` models its `return None`
on unavailable driver, timeout or any other internal failure). -/
structure Scraper where
  browser : Option (String → Option String)

/-- `LlamaPyPIScraper.fetch_with_retry`.  When `use_browser` is set and a
browser collaborator is configured, drive it first: a non-empty page source is
returned at once as a fabricated response with synthetic status 200 and no
HTTP attempt; a falsy page source (`None` or `""`) falls through to the
ordinary retry loop.  Otherwise run the retry loop. -/
def fetch_with_retry (sc : Scraper) (url method : String) (use_browser : Bool)
    (outcomes : Nat → AttemptOutcome) : FetchTrace :=
  if use_browser then
    match sc.browser with
    | some bf =>
      match bf url with
      | some page =>
        if page ≠ "" then ⟨Except.ok (some ⟨200, page⟩), 0, []⟩
        else retryGo method outcomes 0 REQUEST_RETRIES
      | none => retryGo method outcomes 0 REQUEST_RETRIES
    | none => retryGo method outcomes 0 REQUEST_RETRIES
  else retryGo method outcomes 0 REQUEST_RETRIES

/-! ## Version ordering: `PackageInfo._extract_all_versions`

The source sorts the release keys with
`versions.sort(key=packaging_version.parse, reverse=True)` inside a
`try`, and on any parse exception re-sorts with the tokenised fallback key
`[int(p) if p.isdigit() else float('inf') for p in re.split(r'(\d+)', x)]`.
CPython's `list.sort` computes every key before it reorders anything, so a key
exception leaves the list unchanged and the fallback sort then applies to the
whole original list.  `list.sort` is a stable sort; we model it with
`List.insertionSort`, which is also stable and therefore produces the same
list for the same total preorder. -/

/-- Modelled from the external `packaging` library (not part of this
repository): `packaging.version.parse` applied to a plain dotted-numeral
release version `N(.N)*` yields its tuple of numeric components, and raises
`InvalidVersion` on strings this fragment does not cover; such strings are
conservatively treated as unparsable here. -/
def parseRelease (s : String) : Option (List Nat) :=
  let parts := splitChar '.' s.toList
  if parts.all (fun p => !p.isEmpty && p.all Char.isDigit) then
    some (parts.map natOfDigits)
  else none

/-- Modelled from the external `packaging` library: comparison of release
tuples, which pads the shorter tuple with zeros (so `1.0 == 1.0.0`). -/
def relLe : List Nat → List Nat → Bool
  | [], _ => true
  | x :: xs, [] => if x = 0 then relLe xs [] else false
  | x :: xs, y :: ys => if x < y then true else if x = y then relLe xs ys else false

/-- One token of the fallback sort key: a numeric chunk, or the
`float('inf')` placeholder every non-digit chunk maps to. -/
inductive Tok where
  | num (n : Nat)
  | inf
deriving DecidableEq, Repr

/-- Python `<` on fallback-key entries: numbers compare numerically and every
number is below `float('inf')`. -/
def tokLt : Tok → Tok → Bool
  | Tok.num a, Tok.num b => decide (a < b)
  | Tok.num _, Tok.inf => true
  | Tok.inf, _ => false

/-- Python `<=` on lists of fallback-key tokens (lexicographic, a strict
prefix being smaller). -/
def lexLe : List Tok → List Tok → Bool
  | [], _ => true
  | _ :: _, [] => false
  | a :: as, b :: bs => if tokLt a b then true else if a = b then lexLe as bs else false

/-- Values of the maximal digit runs of a string, in order (helper for the
fallback key). -/
def digitGroupsAux : List Char → Nat → Bool → List Nat
  | [], cur, inRun => if inRun then [cur] else []
  | c :: cs, cur, inRun =>
    if c.isDigit then digitGroupsAux cs (cur * 10 + (c.toNat - 48)) true
    else if inRun then cur :: digitGroupsAux cs 0 false
    else digitGroupsAux cs 0 false

/-- Values of the maximal digit runs of a string, in order. -/
def digitGroups (l : List Char) : List Nat := digitGroupsAux l 0 false

/-- The fallback sort key
`[int(p) if p.isdigit() else float('inf') for p in re.split(r'(\d+)', x)]`:
`re.split` with a capturing group alternates (possibly empty) non-digit chunks
with the digit runs, so the key is `[inf]` when the string has no digits and
otherwise `inf` interleaved around the numeric values of the digit runs. -/
def fallbackKey (s : String) : List Tok :=
  match digitGroups s.toList with
  | [] => [Tok.inf]
  | ds => Tok.inf :: (ds.map (fun n => [Tok.num n, Tok.inf])).flatten

/-- `a` may precede `b` in the semantic-descending order (key of `b` ≤ key of
`a`). -/
def semDescLe (a b : String) : Bool :=
  relLe ((parseRelease b).getD []) ((parseRelease a).getD [])

/-- `a` may precede `b` in the fallback-descending order. -/
def fbDescLe (a b : String) : Bool := lexLe (fallbackKey b) (fallbackKey a)

/-- Propositional form of `semDescLe` (for `List.insertionSort`). -/
def semDescRel (a b : String) : Prop := semDescLe a b = true

/-- Propositional form of `fbDescLe` (for `List.insertionSort`). -/
def fbDescRel (a b : String) : Prop := fbDescLe a b = true

instance : DecidableRel semDescRel := fun _ _ => instDecidableEqBool _ true

instance : DecidableRel fbDescRel := fun _ _ => instDecidableEqBool _ true

/-- One entry of a release's file list; only `upload_time_iso_8601` is read
by the core. -/
structure ReleaseFile where
  upload_time_iso_8601 : Option String
deriving DecidableEq, Repr

/-- `PackageInfo._extract_all_versions`: the keys of the `releases` map,
sorted descending by the semantic comparator when every key parses, and
otherwise re-sorted in full by the fallback comparator. -/
def extract_all_versions (releases : List (String × List ReleaseFile)) : List String :=
  let versions := releases.map Prod.fst
  if versions.all (fun v => (parseRelease v).isSome) then
    List.insertionSort semDescRel versions
  else
    List.insertionSort fbDescRel versions

/-! ## The record model: `PackageInfo` -/

/-- The fields of a JSON `info` object that `PackageInfo.from_pypi_json`
reads.  `none` models an absent key (for `project_urls` and `requires_dist`
it also covers an explicit `null`, which the source collapses to the same
default via `or {}` / the falsy check); values are modelled at the shapes the
source expects. -/
structure PyPIInfo where
  version : Option String
  summary : Option String
  author : Option String
  author_email : Option String
  license : Option String
  project_urls : Option (List (String × Option String))
  classifiers : Option (List String)
  requires_dist : Option (List String)
deriving DecidableEq, Repr

/-- An `info` object with every key absent (the default `{}` of
`data.get("info", {})`). -/
def PyPIInfo.empty : PyPIInfo := ⟨none, none, none, none, none, none, none, none⟩

/-- The parts of the primary PyPI JSON document the core reads: the `info`
object and the `releases` map (absent maps are the empty map). -/
structure PyPIDoc where
  info : PyPIInfo
  releases : List (String × List ReleaseFile)
deriving DecidableEq, Repr

/-- The `PackageInfo` record (fields the core reads or writes; the
bookkeeping fields `package_files`, `metadata`, `pypi_json` and
`source_analysis`, which no claim touches, are omitted). -/
structure PackageInfo where
  name : String
  version : String
  release_date : Option String
  description : String
  author : String
  author_email : String
  license : String
  dependencies : List String
  dev_dependencies : List String
  project_urls : List (String × String)
  github_url : Option String
  github_stats : List (String × Nat)
  all_versions : List String
  classifiers : List String
  downloads : List (String × Nat)
  readme_content : String
  error : Option String
deriving DecidableEq, Repr

/-- `PackageInfo.__init__`: the defaults every record starts from. -/
def PackageInfo.mkNew (name : String) : PackageInfo :=
  ⟨name, "N/A", none, "", "", "", "", [], [], [], none, [], [], [], [], "", none⟩

/-! ## Dependency parsing: `PackageInfo._parse_requirements` -/

/-- The markers `_parse_requirements` looks for (substring test against the
lower-cased marker part). -/
def dev_markers : List String := ["extra == 'dev'", "extra == 'test'", "extra == 'docs'"]

/-- Python `req.split(";", 1)`: the part before the first `;` and the part
after it. -/
def splitSemi (req : String) : String × String :=
  (String.mk (req.toList.takeWhile (fun c => c ≠ ';')),
   String.mk ((req.toList.dropWhile (fun c => c ≠ ';')).drop 1))

/-- A requirement string (known to contain `;`) counts as a development
dependency when its marker part mentions one of the dev/test/docs extras. -/
def isDevReq (req : String) : Bool :=
  dev_markers.any (fun m => pyIn m (pyLower (splitSemi req).2))

/-- The classification loop of `_parse_requirements`: empty strings are
skipped; a requirement with a marker goes to the dev list when the marker
mentions a dev/test/docs extra and to the regular list otherwise; a
requirement without a marker is regular.  Both lists keep the full original
string, stripped. -/
def classifyReqs : List String → List String × List String
  | [] => ([], [])
  | req :: rest =>
    let acc := classifyReqs rest
    if req = "" then acc
    else if req.toList.contains ';' then
      if isDevReq req then (acc.1, pyStrip req :: acc.2)
      else (pyStrip req :: acc.1, acc.2)
    else (pyStrip req :: acc.1, acc.2)

/-- `PackageInfo._parse_requirements`: returns (regular dependencies,
dev dependencies); an empty regular list is replaced by the
`"No dependencies listed"` sentinel. -/
def parse_requirements (requires_dist : List String) : List String × List String :=
  let acc := classifyReqs requires_dist
  (if acc.1.isEmpty then ["No dependencies listed"] else acc.1, acc.2)

/-! ## VCS url derivation: `PackageInfo._extract_github_url` -/

/-- The fixed priority list of `project_urls` keys. -/
def github_keys : List String :=
  ["GitHub", "Source", "Source Code", "Repository", "Code", "Homepage"]

/-- `"github.com" in url.lower()`. -/
def containsGithub (v : String) : Bool := pyIn "github.com" (pyLower v)

/-- `url.split("?")[0].split("#")[0]`: drop a query and a fragment. -/
def stripQF (url : String) : String :=
  String.mk ((url.toList.takeWhile (fun c => c ≠ '?')).takeWhile (fun c => c ≠ '#'))

/-- `PackageInfo._extract_github_url`, reading the `project_urls` map after
null-valued entries were dropped: scan the priority keys (exact, case-
sensitive dict lookup `key in self.project_urls`) for one whose value contains
`github.com` case-insensitively; if none matches, scan all values for a
truthy value containing `github.com`; strip query/fragment from the winner. -/
def extract_github_url (urls : List (String × String)) : Option String :=
  match github_keys.findSome? (fun key =>
      match urls.lookup key with
      | some v => if containsGithub v then some v else none
      | none => none) with
  | some v => some (stripQF v)
  | none =>
    match urls.findSome? (fun kv =>
        if (kv.2 != "") && containsGithub kv.2 then some kv.2 else none) with
    | some v => some (stripQF v)
    | none => none

/-- Modelled from the spec: the variant of the scan in which the priority key
names are matched case-insensitively, as the spec's words describe.  Used
only to compare the spec's description against the source's behaviour. -/
def extract_github_url_ci (urls : List (String × String)) : Option String :=
  match github_keys.findSome? (fun key =>
      urls.findSome? (fun kv =>
        if pyLower kv.1 == pyLower key && containsGithub kv.2 then some kv.2 else none)) with
  | some v => some (stripQF v)
  | none =>
    match urls.findSome? (fun kv =>
        if (kv.2 != "") && containsGithub kv.2 then some kv.2 else none) with
    | some v => some (stripQF v)
    | none => none

/-! ## Building a record from the primary document -/

/-- `PackageInfo._extract_release_date`: the first file entry of the given
release carrying an `upload_time_iso_8601` value.  (The source additionally
reformats the timestamp to `YYYY-MM-DD` and skips unparsable ones; no claim
depends on the reformatting, so the raw value is kept here.) -/
def extract_release_date (data : PyPIDoc) (version : String) : Option String :=
  ((data.releases.lookup version).getD []).findSome? (fun f => f.upload_time_iso_8601)

/-- `PackageInfo.from_pypi_json`: populate the record from the primary
document.  Entries of `project_urls` whose value is `None` are deleted (empty
strings are kept); an absent/falsy `requires_dist` yields the sentinel
dependency list without touching `dev_dependencies`; the vcs url is derived
from the cleaned `project_urls`; `all_versions` sorts the release keys; the
release date is resolved only when a version was resolved. -/
def from_pypi_json (p : PackageInfo) (data : PyPIDoc) : PackageInfo :=
  let info := data.info
  let version := info.version.getD "N/A"
  let urls := (info.project_urls.getD []).filterMap
    (fun kv => (kv.2.map (fun v => (kv.1, v))))
  let rd := (info.requires_dist.getD [])
  let deps := if rd.isEmpty then (["No dependencies listed"], p.dev_dependencies)
    else parse_requirements rd
  { p with
    version := version,
    description := info.summary.getD "No description available",
    author := info.author.getD "",
    author_email := info.author_email.getD "",
    license := info.license.getD "",
    project_urls := urls,
    classifiers := info.classifiers.getD [],
    dependencies := deps.1,
    dev_dependencies := deps.2,
    github_url := extract_github_url urls,
    all_versions := extract_all_versions data.releases,
    release_date := if version ≠ "N/A" then extract_release_date data version
      else p.release_date }

/-! ## The per-identity pipeline: `LlamaPyPIScraper.fetch_package_info` -/

/-- The stages of the pipeline, in source order. -/
inductive Stage where
  | primary
  | license_page
  | downloads
  | readme
  | github
deriving DecidableEq, Repr

/-- The environment a `fetch_package_info` run sees: the outcome of the
primary-document fetch (`none` models `fetch_with_retry` returning `None`
after exhausting its retries), and the values the later best-effort stages
produce.  Each later stage catches all of its own errors in the source
(`scrape_license`, `fetch_download_stats`, `fetch_readme`,
`fetch_github_stats` all return a default on failure), so each is a total
value here; a failing stage is represented by its documented default. -/
structure StageResults where
  primary : Option PyPIDoc
  license_page : String → String
  download_stats : List (String × Nat)
  readme : String
  github_stats : List (String × Nat)

/-- `LlamaPyPIScraper.fetch_package_info`: build the record for one identity,
also reporting which stages were attempted.  A failed primary fetch sets
`error` and skips every later stage; otherwise the record is populated from
the document and the best-effort stages run in order, the GitHub stage only
when a vcs url was resolved. -/
def fetch_package_info (env : StageResults) (name : String) :
    PackageInfo × List Stage :=
  let p := PackageInfo.mkNew name
  match env.primary with
  | none =>
    ({ p with error := some ("Failed to fetch package information for " ++ name) },
     [Stage.primary])
  | some data =>
    let p1 := from_pypi_json p data
    let p2 := { p1 with license := env.license_page p1.license }
    let p3 := { p2 with downloads := env.download_stats }
    let p4 := { p3 with readme_content := env.readme }
    match p4.github_url with
    | some _ =>
      ({ p4 with github_stats := env.github_stats },
       [Stage.primary, Stage.license_page, Stage.downloads, Stage.readme, Stage.github])
    | none =>
      (p4, [Stage.primary, Stage.license_page, Stage.downloads, Stage.readme])

/-! ## The bulk orchestrator: `LlamaPyPIScraper.bulk_analyze` -/

/-- `LlamaPyPIScraper._analyze_single_package`: run one identity's pipeline
(abstracted as `pipeline`, which may raise — `Except.error` models any
exception escaping the pipeline, carrying `str(e)`); an exception is
converted into a fresh record with `error` set to the message. -/
def analyze_single_package (pipeline : String → Except String PackageInfo)
    (name : String) : PackageInfo :=
  match pipeline name with
  | Except.ok p => p
  | Except.error e => { PackageInfo.mkNew name with error := some e }

/-- `LlamaPyPIScraper.bulk_analyze`: one record per input identity.  The
thread pool (`MAX_WORKERS` workers) only schedules the independent
per-identity computations; `as_completed` collects them in an
environment-chosen order, so theorems about the run quantify over an
arbitrary permutation of this list. -/
def bulk_analyze (pipeline : String → Except String PackageInfo)
    (package_names : List String) : List PackageInfo :=
  package_names.map (analyze_single_package pipeline)

/-! ## Helper lemmas about the retry loop -/

theorem fetch_no_browser (sc : Scraper) (url method : String)
    (outcomes : Nat → AttemptOutcome) :
    fetch_with_retry sc url method false outcomes =
      retryGo method outcomes 0 REQUEST_RETRIES := rfl

theorem map_range'_shift (f : Nat → Nat) :
    ∀ (m s : Nat), (List.range' (s + 1) m).map f =
      (List.range' s m).map (fun n => f (n + 1)) := by
  intro m
  induction m with
  | zero => intro s; rfl
  | succ m ih =>
    intro s
    rw [List.range'_succ, List.range'_succ, List.map_cons, List.map_cons, ih]

theorem sleeps_shift (D i m : Nat) :
    D * (i + 1) :: (List.range' 1 m).map (fun n => D * (i + 1 + n)) =
      (List.range' 1 (m + 1)).map (fun n => D * (i + n)) := by
  rw [List.range'_succ, List.map_cons]
  refine congrArg₂ _ rfl ?_
  rw [map_range'_shift (fun n => D * (i + n)) m 1]
  exact (List.map_congr_left (fun a _ => congrArg (fun t => D * t) (by omega))).symm

/-- Unfolding one failing iteration of the loop. -/
theorem retryGo_step (method : String) (outcomes : Nat → AttemptOutcome)
    (hm : methodValid method = true) (i r : Nat) (hr : r ≠ 0)
    (hfail0 : failsAttempt (outcomes i) = true)
    (res : Except String (Option Response)) (att : Nat) (sl : List Nat)
    (hrec : retryGo method outcomes (i + 1) r = ⟨res, att, sl⟩) :
    retryGo method outcomes i (r + 1) =
      ⟨res, att + 1, REQUEST_RETRY_DELAY * (i + 1) :: sl⟩ := by
  cases ho : outcomes i with
  | connError msg => simp [retryGo, hm, ho, hr, hrec]
  | response rr =>
    have he : isErrorStatus rr.status_code = true := by
      rw [ho] at hfail0; simpa [failsAttempt] using hfail0
    simp [retryGo, hm, ho, he, hr, hrec]

/-- If attempts `i .. i+k-2` fail retryably and attempt `i+k-1` yields a
non-error response, the loop (with at least `k` iterations left) returns that
response, performing exactly `k` requests, with the sleep
`REQUEST_RETRY_DELAY * n` before the `n`-th retry. -/
theorem retryGo_success (method : String) (outcomes : Nat → AttemptOutcome)
    (hm : methodValid method = true) :
    ∀ (k r i : Nat) (resp : Response), 1 ≤ k → k ≤ r →
      (∀ j, j < k - 1 → failsAttempt (outcomes (i + j)) = true) →
      outcomes (i + (k - 1)) = AttemptOutcome.response resp →
      isErrorStatus resp.status_code = false →
      retryGo method outcomes i r =
        ⟨Except.ok (some resp), k,
         (List.range' 1 (k - 1)).map (fun n => REQUEST_RETRY_DELAY * (i + n))⟩ := by
  intro k
  induction k with
  | zero => intro r i resp h1; omega
  | succ k ih =>
    intro r i resp _ hkr hfail hsucc hok
    obtain ⟨r', rfl⟩ : ∃ r', r = r' + 1 := ⟨r - 1, by omega⟩
    cases k with
    | zero =>
      rw [show i + (0 + 1 - 1) = i from by omega] at hsucc
      simp [retryGo, hm, hsucc, hok]
    | succ k' =>
      have hfail0 : failsAttempt (outcomes i) = true := by
        simpa using hfail 0 (by omega)
      have hrec := ih r' (i + 1) resp (by omega) (by omega)
        (fun j hj => by
          have := hfail (j + 1) (by omega)
          simpa [Nat.add_assoc, Nat.add_comm 1 j] using this)
        (by rw [show i + 1 + (k' + 1 - 1) = i + (k' + 1 + 1 - 1) from by omega]
            exact hsucc)
        hok
      rw [show k' + 1 - 1 = k' from by omega] at hrec
      rw [retryGo_step method outcomes hm i r' (by omega) hfail0 _ _ _ hrec]
      rw [show k' + 1 + 1 - 1 = k' + 1 from by omega, ← sleeps_shift]

/-- If every attempt of the remaining `r` iterations fails retryably, the
loop returns `None` after `r` requests, with the full sleep schedule. -/
theorem retryGo_exhaust (method : String) (outcomes : Nat → AttemptOutcome)
    (hm : methodValid method = true) :
    ∀ (r i : Nat), 1 ≤ r →
      (∀ j, j < r → failsAttempt (outcomes (i + j)) = true) →
      retryGo method outcomes i r =
        ⟨Except.ok none, r,
         (List.range' 1 (r - 1)).map (fun n => REQUEST_RETRY_DELAY * (i + n))⟩ := by
  intro r
  induction r with
  | zero => intro i h1; omega
  | succ r ih =>
    intro i _ hfail
    have hfail0 : failsAttempt (outcomes i) = true := by
      simpa using hfail 0 (by omega)
    cases r with
    | zero =>
      cases ho : outcomes i with
      | connError msg => simp [retryGo, hm, ho]
      | response rr =>
        have he : isErrorStatus rr.status_code = true := by
          rw [ho] at hfail0; simpa [failsAttempt] using hfail0
        simp [retryGo, hm, ho, he]
    | succ r' =>
      have hrec := ih (i + 1) (by omega)
        (fun j hj => by
          have := hfail (j + 1) (by omega)
          simpa [Nat.add_assoc, Nat.add_comm 1 j] using this)
      rw [show r' + 1 - 1 = r' from by omega] at hrec
      rw [retryGo_step method outcomes hm i (r' + 1) (by omega) hfail0 _ _ _ hrec]
      rw [show r' + 1 + 1 - 1 = r' + 1 from by omega, ← sleeps_shift]

/-- With a supported method the loop never lets an exception escape: the
result is always `Except.ok` (a response or `None`). -/
theorem retryGo_no_raise (method : String) (outcomes : Nat → AttemptOutcome)
    (hm : methodValid method = true) :
    ∀ (r i : Nat), ∃ o, (retryGo method outcomes i r).result = Except.ok o := by
  intro r
  induction r with
  | zero => intro i; exact ⟨none, rfl⟩
  | succ r ih =>
    intro i
    cases ho : outcomes i with
    | connError msg =>
      by_cases hr : r = 0
      · subst hr; exact ⟨none, by simp [retryGo, hm, ho]⟩
      · obtain ⟨o, h⟩ := ih (i + 1)
        exact ⟨o, by simp [retryGo, hm, ho, hr, h]⟩
    | response rr =>
      by_cases he : isErrorStatus rr.status_code = true
      · by_cases hr : r = 0
        · subst hr; exact ⟨none, by simp [retryGo, hm, ho, he]⟩
        · obtain ⟨o, h⟩ := ih (i + 1)
          exact ⟨o, by simp [retryGo, hm, ho, he, hr, h]⟩
      · exact ⟨some rr, by simp [retryGo, hm, ho, he]⟩

/-- With an unsupported method the first iteration raises `ValueError`
before issuing any request. -/
theorem retryGo_invalid (method : String) (outcomes : Nat → AttemptOutcome)
    (hm : methodValid method = false) :
    ∀ (i r : Nat), 1 ≤ r →
      retryGo method outcomes i r =
        ⟨Except.error ("Unsupported HTTP method: " ++ method), 0, []⟩ := by
  intro i r h1
  obtain ⟨r', rfl⟩ : ∃ r', r = r' + 1 := ⟨r - 1, by omega⟩
  simp [retryGo, hm]

theorem chain_le_sleeps (D m : Nat) :
    List.Chain' (fun a b => a ≤ b) ((List.range' 1 m).map (fun n => D * n)) := by
  apply List.Pairwise.chain'
  exact List.Pairwise.map (fun n => D * n)
    (fun a b hab => Nat.mul_le_mul_left D (Nat.le_of_lt hab))
    (List.pairwise_lt_range' 1 m)

/-! ## Claim C2 -/

/-- Claim C2 (amended): for every fetch (no browser bypass) whose attempts
`1..k-1` fail with retryable errors and whose attempt `k ≤ REQUEST_RETRIES`
succeeds, `fetch_with_retry` returns that success after exactly `k` attempts,
waiting `REQUEST_RETRY_DELAY * n` before retry attempt `n` (a non-decreasing
schedule); and when all `REQUEST_RETRIES` attempts fail with retryable
errors it returns the `None` sentinel (raising nothing past the boundary).
The amendment: the exhausted return value is the bare `None`, which does not
carry the last underlying cause (see the counterexample). -/
theorem C2_retry_schedule :
    (∀ (sc : Scraper) (url method : String) (outcomes : Nat → AttemptOutcome)
        (k : Nat) (resp : Response),
      methodValid method = true → 1 ≤ k → k ≤ REQUEST_RETRIES →
      (∀ j, j < k - 1 → failsAttempt (outcomes j) = true) →
      outcomes (k - 1) = AttemptOutcome.response resp →
      isErrorStatus resp.status_code = false →
      fetch_with_retry sc url method false outcomes =
        ⟨Except.ok (some resp), k,
         (List.range' 1 (k - 1)).map (fun n => REQUEST_RETRY_DELAY * n)⟩ ∧
      List.Chain' (fun a b => a ≤ b)
        ((List.range' 1 (k - 1)).map (fun n => REQUEST_RETRY_DELAY * n))) ∧
    (∀ (sc : Scraper) (url method : String) (outcomes : Nat → AttemptOutcome),
      methodValid method = true →
      (∀ j, j < REQUEST_RETRIES → failsAttempt (outcomes j) = true) →
      fetch_with_retry sc url method false outcomes =
        ⟨Except.ok none, REQUEST_RETRIES,
         [REQUEST_RETRY_DELAY * 1, REQUEST_RETRY_DELAY * 2]⟩) := by
  constructor
  · intro sc url method outcomes k resp hm hk1 hkr hfail hsucc hok
    refine ⟨?_, chain_le_sleeps REQUEST_RETRY_DELAY (k - 1)⟩
    rw [fetch_no_browser]
    rw [retryGo_success method outcomes hm k REQUEST_RETRIES 0 resp hk1 hkr
      (fun j hj => by simpa using hfail j hj)
      (by simpa using hsucc) hok]
    exact congrArg _ (List.map_congr_left (fun a _ => by rw [Nat.zero_add]))
  · intro sc url method outcomes hm hfail
    rw [fetch_no_browser]
    rw [retryGo_exhaust method outcomes hm REQUEST_RETRIES 0 (by decide)
      (fun j hj => by simpa using hfail j hj)]
    rfl

/-- Concrete outcome stream for the C2 witness: a transient failure on the
first attempt, success on the second. -/
def c2Outcomes : Nat → AttemptOutcome := fun i =>
  if i = 0 then AttemptOutcome.connError "timed out"
  else AttemptOutcome.response ⟨200, "ok"⟩

/-- Witness for C2 at a concrete input: one retryable failure then success
on attempt 2. -/
theorem C2_retry_schedule_witness :
    fetch_with_retry ⟨none⟩ "https://pypi.org/pypi/requests/json" "get" false c2Outcomes =
      ⟨Except.ok (some ⟨200, "ok"⟩), 2,
       (List.range' 1 (2 - 1)).map (fun n => REQUEST_RETRY_DELAY * n)⟩ ∧
    List.Chain' (fun a b => a ≤ b)
      ((List.range' 1 (2 - 1)).map (fun n => REQUEST_RETRY_DELAY * n)) :=
  C2_retry_schedule.1 ⟨none⟩ "https://pypi.org/pypi/requests/json" "get" c2Outcomes 2
    ⟨200, "ok"⟩ (by decide) (by decide) (by decide)
    (fun j hj => by
      have hj0 : j = 0 := by omega
      subst hj0; decide)
    (by decide) (by decide)

/-- Outcome stream failing all three attempts the same way. -/
def c2FailA : Nat → AttemptOutcome := fun _ => AttemptOutcome.connError "timed out"

/-- Outcome stream failing all three attempts, the last with a different
underlying cause. -/
def c2FailB : Nat → AttemptOutcome := fun i =>
  if i = 2 then AttemptOutcome.connError "connection refused"
  else AttemptOutcome.connError "timed out"

/-- Claim C2 counterexample: after all attempts fail retryably the source
returns the bare `None` (`return None` at line 462), so two exhausted runs
that differ only in the last underlying cause return identical values — the
exhausted result does not carry the last cause, contrary to the claim's
"returns an exhausted error value carrying the last cause". -/
theorem C2_counterexample :
    fetch_with_retry ⟨none⟩ "u" "get" false c2FailA = ⟨Except.ok none, 3, [1, 2]⟩ ∧
    fetch_with_retry ⟨none⟩ "u" "get" false c2FailB = ⟨Except.ok none, 3, [1, 2]⟩ ∧
    c2FailA 2 ≠ c2FailB 2 :=
  ⟨by decide, by decide, by decide⟩

/-! ## Claim C3 -/

/-- Claim C3 (amended): a response with any error status 400..599 — the
"fatal" statuses such as 404 included — is turned by `raise_for_status` into
an `HTTPError`, which the loop's `except requests.RequestException` catches
like any retryable failure: the fetcher retries after it (so a 404 does not
stop the attempts), and no `HttpError`-style value is surfaced.  (The
retryable set 429/500/502/503/504 only configures the inner urllib3
transport adapter, installed when cloudscraper is disabled; the outer loop
makes no such distinction.) -/
theorem C3_fatal_status_retried :
    (∀ (s : Nat) (body : String), 400 ≤ s → s < 600 →
      failsAttempt (AttemptOutcome.response ⟨s, body⟩) = true) ∧
    (∀ (sc : Scraper) (url method : String) (outcomes : Nat → AttemptOutcome)
        (s : Nat) (body : String) (resp : Response),
      methodValid method = true → 400 ≤ s → s < 600 →
      outcomes 0 = AttemptOutcome.response ⟨s, body⟩ →
      outcomes 1 = AttemptOutcome.response resp →
      isErrorStatus resp.status_code = false →
      fetch_with_retry sc url method false outcomes =
        ⟨Except.ok (some resp), 2, [REQUEST_RETRY_DELAY * 1]⟩) := by
  constructor
  · intro s body h1 h2
    simp only [failsAttempt, isErrorStatus, Bool.and_eq_true, decide_eq_true_eq]
    omega
  · intro sc url method outcomes s body resp hm h1 h2 h0 hsucc hok
    rw [fetch_no_browser]
    rw [retryGo_success method outcomes hm 2 REQUEST_RETRIES 0 resp (by decide) (by decide)
      (fun j hj => by
        have hj0 : j = 0 := by omega
        subst hj0
        rw [show (0 : Nat) + 0 = 0 from rfl, h0]
        simp only [failsAttempt, isErrorStatus, Bool.and_eq_true, decide_eq_true_eq]
        omega)
      (by simpa using hsucc) hok]
    rfl

/-- Witness for C3: a 404 on the first attempt, then a 200; the fetch
returns the 200 after two attempts. -/
theorem C3_fatal_status_retried_witness :
    fetch_with_retry ⟨none⟩ "https://pypi.org/pypi/missing/json" "get" false
        (fun i => if i = 0 then AttemptOutcome.response ⟨404, "not found"⟩
                  else AttemptOutcome.response ⟨200, "ok"⟩) =
      ⟨Except.ok (some ⟨200, "ok"⟩), 2, [REQUEST_RETRY_DELAY * 1]⟩ :=
  C3_fatal_status_retried.2 ⟨none⟩ "https://pypi.org/pypi/missing/json" "get"
    (fun i => if i = 0 then AttemptOutcome.response ⟨404, "not found"⟩
              else AttemptOutcome.response ⟨200, "ok"⟩)
    404 "not found" ⟨200, "ok"⟩ (by decide) (by decide) (by decide)
    (by decide) (by decide) (by decide)

/-- Outcome stream for the C3 counterexample: a fatal 404 on attempt 1,
success on attempt 2. -/
def c3Outcomes : Nat → AttemptOutcome := fun i =>
  if i = 0 then AttemptOutcome.response ⟨404, "not found"⟩
  else AttemptOutcome.response ⟨200, "ok"⟩

/-- Claim C3 counterexample: after a 404 — a fatal status outside the
retryable set — the fetcher performs a second attempt and returns its
success, instead of stopping after the first attempt and returning an
`HttpError` carrying 404 as the claim states. -/
theorem C3_counterexample :
    fetch_with_retry ⟨none⟩ "u" "get" false c3Outcomes =
      ⟨Except.ok (some ⟨200, "ok"⟩), 2, [1]⟩ ∧
    (fetch_with_retry ⟨none⟩ "u" "get" false c3Outcomes).attempts ≠ 1 :=
  ⟨by decide, by decide⟩

/-! ## Claim C9 -/

/-- Claim C9 (amended): when a request is marked browser-eligible and the
configured collaborator returns a (non-empty) rendered page, the fetch
bypasses the retry path entirely and returns the page as a response with
synthetic status 200 and zero HTTP attempts; but when the collaborator is
unconfigured or fails to return a page, the fetch does NOT return a
dedicated fetch error — it falls through to the ordinary lightweight retry
path and returns whatever that path produces.  (The amendment replaces the
claim's `FallbackUnavailable` outcome with this fall-through.) -/
theorem C9_browser_fallback :
    (∀ (bf : String → Option String) (url method : String)
        (outcomes : Nat → AttemptOutcome) (page : String),
      bf url = some page → page ≠ "" →
      fetch_with_retry ⟨some bf⟩ url method true outcomes =
        ⟨Except.ok (some ⟨200, page⟩), 0, []⟩) ∧
    (∀ (bf : String → Option String) (url method : String)
        (outcomes : Nat → AttemptOutcome),
      bf url = none →
      fetch_with_retry ⟨some bf⟩ url method true outcomes =
        retryGo method outcomes 0 REQUEST_RETRIES) ∧
    (∀ (url method : String) (outcomes : Nat → AttemptOutcome),
      fetch_with_retry ⟨none⟩ url method true outcomes =
        retryGo method outcomes 0 REQUEST_RETRIES) := by
  refine ⟨?_, ?_, ?_⟩
  · intro bf url method outcomes page hbf hp
    simp [fetch_with_retry, hbf, hp]
  · intro bf url method outcomes hbf
    simp [fetch_with_retry, hbf]
  · intro url method outcomes
    simp [fetch_with_retry]

/-- Witness for C9: a configured collaborator returning a rendered page
short-circuits the fetch with a synthetic 200. -/
theorem C9_browser_fallback_witness :
    fetch_with_retry ⟨some (fun _ => some "<html>rendered</html>")⟩
        "https://pypi.org/project/x/" "get" true (fun _ => AttemptOutcome.connError "unused") =
      ⟨Except.ok (some ⟨200, "<html>rendered</html>"⟩), 0, []⟩ :=
  C9_browser_fallback.1 (fun _ => some "<html>rendered</html>")
    "https://pypi.org/project/x/" "get" (fun _ => AttemptOutcome.connError "unused")
    "<html>rendered</html>" rfl (by decide)

/-- A configured collaborator that fails to return a page. -/
def c9Scraper : Scraper := ⟨some (fun _ => none)⟩

/-- Claim C9 counterexample: the browser collaborator fails to return a
page, yet the fetch returns a SUCCESSFUL response obtained by the
lightweight retry path — not a fetch error (`FallbackUnavailable`) as the
claim states. -/
theorem C9_counterexample :
    fetch_with_retry c9Scraper "u" "get" true
        (fun _ => AttemptOutcome.response ⟨200, "light"⟩) =
      ⟨Except.ok (some ⟨200, "light"⟩), 1, []⟩ := by decide

/-! ## Claim C10 -/

/-- The condition under which `fetch_with_retry` returns early through the
browser bypass: the request is marked browser-eligible, a collaborator is
configured, and it returns a truthy (non-empty) page source. -/
def usesBrowserBypass (sc : Scraper) (url : String) (use_browser : Bool) : Prop :=
  use_browser = true ∧
    ∃ bf page, sc.browser = some bf ∧ bf url = some page ∧ page ≠ ""

/-- Every call that does not return through the browser bypass — the flag is
unset, or no collaborator is configured, or the collaborator yields `None`
or an empty page — runs the ordinary retry loop. -/
theorem fetch_no_bypass (sc : Scraper) (url method : String) (use_browser : Bool)
    (outcomes : Nat → AttemptOutcome)
    (h : ¬ usesBrowserBypass sc url use_browser) :
    fetch_with_retry sc url method use_browser outcomes =
      retryGo method outcomes 0 REQUEST_RETRIES := by
  cases use_browser with
  | false => rfl
  | true =>
    obtain ⟨br⟩ := sc
    cases br with
    | none => simp [fetch_with_retry]
    | some bf =>
      cases hbf : bf url with
      | none => simp [fetch_with_retry, hbf]
      | some page =>
        by_cases hp : page = ""
        · simp [fetch_with_retry, hbf, hp]
        · exact absurd ⟨rfl, bf, page, rfl, hbf, hp⟩ h

/-- Claim C10 (amended): among calls that do not return early through the
browser bypass — whether the flag is unset, no collaborator is configured,
or the collaborator fails to yield a page — `fetch_with_retry` raises an
exception past its boundary iff the method is neither `get` nor `post`
case-insensitively: the `ValueError` escapes during the first loop
iteration, before any request is issued, because the loop catches only
`requests.RequestException`; and for a valid method the call never raises,
returning a response or `None` on every path (browser bypass included).
The amendment restricts the "only if" direction to calls that do not return
through the bypass: a bypass return ignores the method entirely (see the
counterexample). -/
theorem C10_method_dispatch :
    (∀ (sc : Scraper) (url method : String) (use_browser : Bool)
        (outcomes : Nat → AttemptOutcome),
      methodValid method = false →
      ¬ usesBrowserBypass sc url use_browser →
      fetch_with_retry sc url method use_browser outcomes =
        ⟨Except.error ("Unsupported HTTP method: " ++ method), 0, []⟩) ∧
    (∀ (sc : Scraper) (url method : String) (use_browser : Bool)
        (outcomes : Nat → AttemptOutcome),
      methodValid method = true →
      ∃ o, (fetch_with_retry sc url method use_browser outcomes).result = Except.ok o) := by
  constructor
  · intro sc url method use_browser outcomes hm hb
    rw [fetch_no_bypass sc url method use_browser outcomes hb]
    exact retryGo_invalid method outcomes hm 0 REQUEST_RETRIES (by decide)
  · intro sc url method use_browser outcomes hm
    cases use_browser with
    | false =>
      rw [fetch_no_browser]
      exact retryGo_no_raise method outcomes hm REQUEST_RETRIES 0
    | true =>
      obtain ⟨br⟩ := sc
      cases br with
      | none =>
        obtain ⟨o, h⟩ := retryGo_no_raise method outcomes hm REQUEST_RETRIES 0
        exact ⟨o, by simpa [fetch_with_retry] using h⟩
      | some bf =>
        cases hbf : bf url with
        | none =>
          obtain ⟨o, h⟩ := retryGo_no_raise method outcomes hm REQUEST_RETRIES 0
          exact ⟨o, by simpa [fetch_with_retry, hbf] using h⟩
        | some page =>
          by_cases hp : page = ""
          · obtain ⟨o, h⟩ := retryGo_no_raise method outcomes hm REQUEST_RETRIES 0
            exact ⟨o, by simpa [fetch_with_retry, hbf, hp] using h⟩
          · exact ⟨some ⟨200, page⟩, by simp [fetch_with_retry, hbf, hp]⟩

/-- Witness for C10: an unsupported method (`"delete"`) raises `ValueError`
at once even on a browser-eligible call whose collaborator fails to return
a page (so the call falls through to the retry loop), and a supported method
never raises. -/
theorem C10_method_dispatch_witness :
    fetch_with_retry ⟨some (fun _ => none)⟩ "u" "delete" true
        (fun _ => AttemptOutcome.connError "x") =
      ⟨Except.error ("Unsupported HTTP method: " ++ "delete"), 0, []⟩ ∧
    ∃ o, (fetch_with_retry ⟨none⟩ "u" "get" false
      (fun _ => AttemptOutcome.connError "x")).result = Except.ok o :=
  ⟨C10_method_dispatch.1 ⟨some (fun _ => none)⟩ "u" "delete" true
      (fun _ => AttemptOutcome.connError "x") (by decide)
      (fun h => by
        obtain ⟨_, bf, page, hb, hbf, _⟩ := h
        injection hb with hb
        rw [← hb] at hbf
        simp at hbf),
   C10_method_dispatch.2 ⟨none⟩ "u" "get" false (fun _ => AttemptOutcome.connError "x") (by decide)⟩

/-- A configured collaborator that always returns a rendered page. -/
def c10Scraper : Scraper := ⟨some (fun _ => some "<html>rendered</html>")⟩

/-- Claim C10 counterexample: the method `"delete"` is neither `get` nor
`post`, yet the call returns normally (no exception escapes), because the
browser bypass returns before the method is ever inspected — refuting the
claim's "if and only if". -/
theorem C10_counterexample :
    methodValid "delete" = false ∧
    fetch_with_retry c10Scraper "https://pypi.org/project/x/" "delete" true
        (fun _ => AttemptOutcome.connError "unused") =
      ⟨Except.ok (some ⟨200, "<html>rendered</html>"⟩), 0, []⟩ :=
  ⟨by decide, by decide⟩

/-! ## Order properties of the two version comparators -/

theorem relLe_zeros : ∀ (xs zs : List Nat), relLe xs [] = true → relLe xs zs = true := by
  intro xs
  induction xs with
  | nil => intro zs _; rfl
  | cons x xs ih =>
    intro zs h
    have hx : x = 0 ∧ relLe xs [] = true := by
      by_cases hx0 : x = 0
      · exact ⟨hx0, by simpa [relLe, hx0] using h⟩
      · simp [relLe, hx0] at h
    obtain ⟨hx0, hxs⟩ := hx
    subst hx0
    cases zs with
    | nil => simpa [relLe] using hxs
    | cons z zs' =>
      by_cases hz : 0 < z
      · simp [relLe, hz]
      · have hz0 : z = 0 := by omega
        subst hz0
        simp only [relLe, Nat.lt_irrefl, if_false, if_pos rfl]
        exact ih zs' hxs

theorem relLe_total : ∀ (a b : List Nat), (relLe a b || relLe b a) = true := by
  intro a
  induction a with
  | nil => intro b; simp [relLe]
  | cons x xs ih =>
    intro b
    cases b with
    | nil => simp [relLe]
    | cons y ys =>
      rcases Nat.lt_trichotomy x y with h | h | h
      · simp [relLe, h]
      · subst h
        simpa [relLe] using ih ys
      · have h1 : ¬ x < y := by omega
        have h2 : x ≠ y := by omega
        simp [relLe, h, h1, h2]

theorem relLe_trans :
    ∀ (a b c : List Nat), relLe a b = true → relLe b c = true → relLe a c = true := by
  intro a
  induction a with
  | nil => intro b c _ _; rfl
  | cons x xs ih =>
    intro b c hab hbc
    cases b with
    | nil => exact relLe_zeros (x :: xs) c hab
    | cons y ys =>
      cases c with
      | nil =>
        have hy : y = 0 ∧ relLe ys [] = true := by
          by_cases hy0 : y = 0
          · exact ⟨hy0, by simpa [relLe, hy0] using hbc⟩
          · simp [relLe, hy0] at hbc
        obtain ⟨hy0, hys⟩ := hy
        subst hy0
        have hx : x = 0 ∧ relLe xs ys = true := by
          by_cases hx0 : x = 0
          · subst hx0
            exact ⟨rfl, by simpa [relLe] using hab⟩
          · have h1 : ¬ x < 0 := by omega
            simp [relLe, h1, hx0] at hab
        obtain ⟨hx0, hxs⟩ := hx
        subst hx0
        have : relLe xs [] = true := ih ys [] hxs hys
        simpa [relLe] using this
      | cons z zs =>
        rcases Nat.lt_trichotomy x y with hxy | hxy | hxy
        · rcases Nat.lt_trichotomy y z with hyz | hyz | hyz
          · have : x < z := by omega
            simp [relLe, this]
          · subst hyz
            simp [relLe, hxy]
          · have h1 : ¬ y < z := by omega
            have h2 : y ≠ z := by omega
            simp [relLe, h1, h2] at hbc
        · subst hxy
          have hxs : relLe xs ys = true := by simpa [relLe] using hab
          rcases Nat.lt_trichotomy x z with hxz | hxz | hxz
          · simp [relLe, hxz]
          · subst hxz
            have hys : relLe ys zs = true := by simpa [relLe] using hbc
            have := ih ys zs hxs hys
            simpa [relLe] using this
          · have h1 : ¬ x < z := by omega
            have h2 : x ≠ z := by omega
            simp [relLe, h1, h2] at hbc
        · have h1 : ¬ x < y := by omega
          have h2 : x ≠ y := by omega
          simp [relLe, h1, h2] at hab

theorem tokLt_irrefl : ∀ a : Tok, tokLt a a = false := by
  intro a; cases a <;> simp [tokLt]

theorem tokLt_asymm : ∀ a b : Tok, tokLt a b = true → tokLt b a = false := by
  intro a b h
  cases a <;> cases b <;> simp [tokLt] at h ⊢
  omega

theorem tokLt_trans :
    ∀ a b c : Tok, tokLt a b = true → tokLt b c = true → tokLt a c = true := by
  intro a b c hab hbc
  cases a <;> cases b <;> cases c <;> simp [tokLt] at hab hbc ⊢
  omega

theorem tokLt_total3 : ∀ a b : Tok, tokLt a b = true ∨ a = b ∨ tokLt b a = true := by
  intro a b
  cases a with
  | num m =>
    cases b with
    | num n =>
      rcases Nat.lt_trichotomy m n with h | h | h
      · exact Or.inl (by simp [tokLt, h])
      · exact Or.inr (Or.inl (by rw [h]))
      · exact Or.inr (Or.inr (by simp [tokLt, h]))
    | inf => exact Or.inl (by simp [tokLt])
  | inf =>
    cases b with
    | num n => exact Or.inr (Or.inr (by simp [tokLt]))
    | inf => exact Or.inr (Or.inl rfl)

theorem lexLe_total : ∀ (a b : List Tok), (lexLe a b || lexLe b a) = true := by
  intro a
  induction a with
  | nil => intro b; simp [lexLe]
  | cons x xs ih =>
    intro b
    cases b with
    | nil => simp [lexLe]
    | cons y ys =>
      rcases tokLt_total3 x y with h | h | h
      · simp [lexLe, h]
      · subst h
        simpa [lexLe, tokLt_irrefl x] using ih ys
      · have h1 : tokLt x y = false := tokLt_asymm y x h
        have h2 : x ≠ y := by
          intro he; subst he
          rw [tokLt_irrefl] at h; exact Bool.false_ne_true h
        simp [lexLe, h, h1, h2]

theorem lexLe_trans :
    ∀ (a b c : List Tok), lexLe a b = true → lexLe b c = true → lexLe a c = true := by
  intro a
  induction a with
  | nil => intro b c _ _; rfl
  | cons x xs ih =>
    intro b c hab hbc
    cases b with
    | nil => simp [lexLe] at hab
    | cons y ys =>
      cases c with
      | nil => simp [lexLe] at hbc
      | cons z zs =>
        have hab' : tokLt x y = true ∨ (x = y ∧ lexLe xs ys = true) := by
          by_cases h : tokLt x y = true
          · exact Or.inl h
          · by_cases he : x = y
            · subst he
              exact Or.inr ⟨rfl, by simpa [lexLe, h] using hab⟩
            · simp [lexLe, h, he] at hab
        have hbc' : tokLt y z = true ∨ (y = z ∧ lexLe ys zs = true) := by
          by_cases h : tokLt y z = true
          · exact Or.inl h
          · by_cases he : y = z
            · subst he
              exact Or.inr ⟨rfl, by simpa [lexLe, h] using hbc⟩
            · simp [lexLe, h, he] at hbc
        rcases hab' with h1 | ⟨he1, h1⟩
        · rcases hbc' with h2 | ⟨he2, h2⟩
          · simp [lexLe, tokLt_trans x y z h1 h2]
          · subst he2
            simp [lexLe, h1]
        · subst he1
          rcases hbc' with h2 | ⟨he2, h2⟩
          · simp [lexLe, h2]
          · subst he2
            have := ih ys zs h1 h2
            by_cases h : tokLt x x = true
            · simp [lexLe, h]
            · simpa [lexLe, h] using this

instance : IsTotal String semDescRel :=
  ⟨fun a b => by
    have := relLe_total ((parseRelease b).getD []) ((parseRelease a).getD [])
    rcases (Bool.or_eq_true _ _).mp this with h | h
    · exact Or.inl h
    · exact Or.inr h⟩

instance : IsTrans String semDescRel :=
  ⟨fun _ _ _ hab hbc => relLe_trans _ _ _ hbc hab⟩

instance : IsTotal String fbDescRel :=
  ⟨fun a b => by
    have := lexLe_total (fallbackKey b) (fallbackKey a)
    rcases (Bool.or_eq_true _ _).mp this with h | h
    · exact Or.inl h
    · exact Or.inr h⟩

instance : IsTrans String fbDescRel :=
  ⟨fun _ _ _ hab hbc => lexLe_trans _ _ _ hbc hab⟩

/-! ## Claim C6 -/

/-- Claim C6 (amended): for every release set, `versionHistory` is a
permutation of the release keys sorted DESCENDING (non-strictly) by a
comparator applied uniformly to the whole list — the semantic comparator
when every entry parses, otherwise the tokenised fallback comparator for all
entries, never a mix — and the order is a deterministic function of the
input.  The amendment drops "strictly": the comparators are total preorders
that can deem distinct keys equal (e.g. `1.0` and `1.0.0`), in which case
the stable sort keeps them in input order (see the counterexample). -/
theorem C6_version_sort (releases : List (String × List ReleaseFile)) :
    (extract_all_versions releases).Perm (releases.map Prod.fst) ∧
    ((∀ v ∈ releases.map Prod.fst, (parseRelease v).isSome = true) →
      extract_all_versions releases =
        List.insertionSort semDescRel (releases.map Prod.fst) ∧
      List.Sorted semDescRel (extract_all_versions releases)) ∧
    ((¬ ∀ v ∈ releases.map Prod.fst, (parseRelease v).isSome = true) →
      extract_all_versions releases =
        List.insertionSort fbDescRel (releases.map Prod.fst) ∧
      List.Sorted fbDescRel (extract_all_versions releases)) := by
  by_cases hall :
      ((releases.map Prod.fst).all (fun v => (parseRelease v).isSome)) = true
  · have heq : extract_all_versions releases =
        List.insertionSort semDescRel (releases.map Prod.fst) := by
      simp [extract_all_versions, hall]
    refine ⟨?_, fun _ => ⟨heq, ?_⟩, fun hno => absurd (List.all_eq_true.mp hall) hno⟩
    · rw [heq]; exact List.perm_insertionSort _ _
    · rw [heq]; exact List.sorted_insertionSort semDescRel _
  · have heq : extract_all_versions releases =
        List.insertionSort fbDescRel (releases.map Prod.fst) := by
      simp [extract_all_versions, hall]
    refine ⟨?_, fun hyes => absurd (List.all_eq_true.mpr hyes) hall, fun _ => ⟨heq, ?_⟩⟩
    · rw [heq]; exact List.perm_insertionSort _ _
    · rw [heq]; exact List.sorted_insertionSort fbDescRel _

/-- Witness for C6 at a concrete release set whose keys all parse: the
history is the semantic descending sort of the keys. -/
theorem C6_version_sort_witness :
    extract_all_versions [("1.0", []), ("2.0", []), ("1.5", [])] =
      List.insertionSort semDescRel ["1.0", "2.0", "1.5"] ∧
    List.Sorted semDescRel (extract_all_versions [("1.0", []), ("2.0", []), ("1.5", [])]) :=
  (C6_version_sort [("1.0", []), ("2.0", []), ("1.5", [])]).2.1 (by decide)

/-- Claim C6 counterexample: in the release set with keys `"1.0"` and
`"1.0.0"` every key parses, so the (uniformly applied) semantic comparator
is used; it deems the two DISTINCT keys equal — release tuples are
zero-padded, `1.0 == 1.0.0` — so the resulting history, which keeps them in
input order, is not strictly descending under that comparator, refuting the
claim's "sorted in strictly descending order". -/
theorem C6_counterexample :
    extract_all_versions [("1.0", []), ("1.0.0", [])] = ["1.0", "1.0.0"] ∧
    (∀ v ∈ ["1.0", "1.0.0"], (parseRelease v).isSome = true) ∧
    semDescLe "1.0" "1.0.0" = true ∧ semDescLe "1.0.0" "1.0" = true ∧
    ("1.0" : String) ≠ "1.0.0" :=
  ⟨by decide, by decide, by decide, by decide, by decide⟩

/-! ## Claim C5 -/

theorem classifyReqs_eq (rd : List String) :
    classifyReqs rd =
      ((rd.filter (fun r => !(r == "") && !(r.toList.contains ';' && isDevReq r))).map pyStrip,
       (rd.filter (fun r => !(r == "") && (r.toList.contains ';' && isDevReq r))).map pyStrip) := by
  induction rd with
  | nil => rfl
  | cons req rest ih =>
    by_cases h0 : req = ""
    · subst h0; simp [classifyReqs, ih]
    · have h0' : (req == "") = false := by simpa using h0
      by_cases hsemi : ';' ∈ req.data
      · by_cases hdev : isDevReq req = true
        · simp [classifyReqs, h0, h0', hsemi, hdev, ih, List.filter_cons]
        · have hdev' : isDevReq req = false := by simpa using hdev
          simp [classifyReqs, h0, h0', hsemi, hdev', ih, List.filter_cons]
      · simp [classifyReqs, h0, h0', hsemi, ih, List.filter_cons]

/-- The primary document of the C5 scenario: version `2.0.0` with
`requires_dist = ["foo>=1.0", "bar; extra == 'dev'"]`. -/
def c5Doc : PyPIDoc :=
  ⟨{ PyPIInfo.empty with
      version := some "2.0.0",
      requires_dist := some ["foo>=1.0", "bar; extra == 'dev'"] }, []⟩

/-- Claim C5 (confirmed): dependency parsing splits each requirement on the
first `;`, classifies it as a development dependency (keeping the full
original string, stripped) when the marker mentions a dev/test/docs extra
and as a required dependency otherwise, skipping empty strings; when no
required dependency remains (and when `requires_dist` is absent or empty)
the `dependencies` field is the `"No dependencies listed"` sentinel list
rather than an empty list.  In particular
`requires_dist = ["foo>=1.0", "bar; extra == 'dev'"]` yields
`dependencies = ["foo>=1.0"]` and `devDependencies = ["bar; extra == 'dev'"]`. -/
theorem C5_dependency_parsing :
    parse_requirements ["foo>=1.0", "bar; extra == 'dev'"] =
      (["foo>=1.0"], ["bar; extra == 'dev'"]) ∧
    (from_pypi_json (PackageInfo.mkNew "examplepkg") c5Doc).dependencies = ["foo>=1.0"] ∧
    (from_pypi_json (PackageInfo.mkNew "examplepkg") c5Doc).dev_dependencies =
      ["bar; extra == 'dev'"] ∧
    (from_pypi_json (PackageInfo.mkNew "examplepkg") c5Doc).version = "2.0.0" ∧
    (∀ rd : List String,
      (parse_requirements rd).1 =
        (if (classifyReqs rd).1.isEmpty then ["No dependencies listed"]
         else (classifyReqs rd).1) ∧
      (parse_requirements rd).2 = (classifyReqs rd).2) ∧
    (∀ rd : List String,
      classifyReqs rd =
        ((rd.filter (fun r => !(r == "") && !(r.toList.contains ';' && isDevReq r))).map pyStrip,
         (rd.filter (fun r => !(r == "") && (r.toList.contains ';' && isDevReq r))).map pyStrip)) ∧
    (∀ p : PackageInfo,
      (from_pypi_json p ⟨PyPIInfo.empty, []⟩).dependencies = ["No dependencies listed"] ∧
      (from_pypi_json p ⟨PyPIInfo.empty, []⟩).dev_dependencies = p.dev_dependencies) :=
  ⟨by decide, rfl, rfl, rfl,
   fun _ => ⟨rfl, rfl⟩,
   classifyReqs_eq,
   fun _ => ⟨rfl, rfl⟩⟩

/-! ## Claim C8 -/

/-- Claim C8 (amended): after a record is populated from the primary
document, its `project_urls` map contains exactly the entries of the raw
`project_urls` whose value was non-null — null-valued entries are dropped,
but entries whose value is the EMPTY STRING are retained (the source's
cleanup tests only `is None`; see the counterexample). -/
theorem C8_links_null_dropped (p : PackageInfo) (d : PyPIDoc) (k v : String) :
    (k, v) ∈ (from_pypi_json p d).project_urls ↔
      (k, some v) ∈ d.info.project_urls.getD [] := by
  simp only [from_pypi_json]
  rw [List.mem_filterMap]
  constructor
  · rintro ⟨⟨k1, ov⟩, hmem, hf⟩
    simp only [Option.map_eq_some'] at hf
    obtain ⟨w, hw, hkv⟩ := hf
    injection hkv with h1 h2
    subst h1; subst h2
    rw [hw] at hmem
    exact hmem
  · intro h
    exact ⟨(k, some v), h, rfl⟩

/-- Concrete document carrying an empty-string project url. -/
def c8Doc : PyPIDoc :=
  ⟨{ PyPIInfo.empty with project_urls := some [("Docs", some "")] }, []⟩

/-- Claim C8 counterexample: an entry whose value is the empty string
survives processing — the populated record's `links` map contains
`("Docs", "")` — refuting the claim that entries with empty values are
dropped (the source deletes only `None`-valued entries). -/
theorem C8_counterexample :
    ("Docs", "") ∈ (from_pypi_json (PackageInfo.mkNew "p") c8Doc).project_urls := by
  decide

/-! ## Claim C7 -/

theorem lookup_mem : ∀ (urls : List (String × String)) (k v : String),
    urls.lookup k = some v → (k, v) ∈ urls := by
  intro urls
  induction urls with
  | nil => intro k v h; simp [List.lookup] at h
  | cons kv rest ih =>
    intro k v h
    obtain ⟨k1, v1⟩ := kv
    by_cases he : k = k1
    · subst he
      simp [List.lookup_cons] at h
      subst h
      exact List.mem_cons_self _ _
    · have he' : (k == k1) = false := by simpa using he
      simp [List.lookup_cons, he'] at h
      exact List.mem_cons_of_mem _ (ih k v h)

theorem takeWhile_ne_not_mem (a : Char) (l : List Char) :
    a ∉ l.takeWhile (fun c => decide (c ≠ a)) := by
  intro hmem
  have := List.mem_takeWhile_imp hmem
  simp at this

theorem stripQF_clean (s : String) :
    '?' ∉ (stripQF s).data ∧ '#' ∉ (stripQF s).data := by
  refine ⟨fun hmem => ?_, fun hmem => ?_⟩
  · exact takeWhile_ne_not_mem '?' _
      (List.Sublist.mem hmem (List.takeWhile_sublist _))
  · exact takeWhile_ne_not_mem '#' _ hmem

/-- The primary document of the C7 scenario:
`links = Homepage ↦ github url, Docs ↦ null`. -/
def c7Doc : PyPIDoc :=
  ⟨{ PyPIInfo.empty with
      project_urls :=
        some [("Homepage", some "https://github.com/acme/widget"), ("Docs", none)] }, []⟩

/-- Claim C7 (amended): `vcsUrl` is derived from `links` by scanning the
fixed priority list of key names with EXACT (case-sensitive) dictionary
lookup — not case-insensitively as the claim states (see the
counterexample) — taking the first priority key whose value contains the
source-control host (the value test alone is case-insensitive); if no named
key matches, all link values are scanned for the host pattern; the chosen
URL has its query and fragment stripped.  In the concrete scenario
`links = Homepage ↦ github url, Docs ↦ null`, `vcsUrl` is that url and only
the `Homepage` entry is retained. -/
theorem C7_vcs_url_extraction :
    ((from_pypi_json (PackageInfo.mkNew "widget") c7Doc).github_url =
        some "https://github.com/acme/widget" ∧
     (from_pypi_json (PackageInfo.mkNew "widget") c7Doc).project_urls =
        [("Homepage", "https://github.com/acme/widget")]) ∧
    (∀ (urls : List (String × String)) (v : String),
      extract_github_url urls = some v → '?' ∉ v.data ∧ '#' ∉ v.data) ∧
    (∀ (urls : List (String × String)) (v : String),
      urls.lookup "GitHub" = some v → containsGithub v = true →
      extract_github_url urls = some (stripQF v)) ∧
    (∀ urls : List (String × String),
      (∀ kv ∈ urls, containsGithub kv.2 = false) → extract_github_url urls = none) := by
  refine ⟨⟨by decide, by decide⟩, ?_, ?_, ?_⟩
  · intro urls v h
    unfold extract_github_url at h
    cases hpri : github_keys.findSome? (fun key =>
        match urls.lookup key with
        | some v => if containsGithub v then some v else none
        | none => none) with
    | some w =>
      rw [hpri] at h
      injection h with h
      subst h
      exact stripQF_clean w
    | none =>
      rw [hpri] at h
      cases hfb : urls.findSome? (fun kv =>
          if (kv.2 != "") && containsGithub kv.2 then some kv.2 else none) with
      | some w =>
        rw [hfb] at h
        injection h with h
        subst h
        exact stripQF_clean w
      | none => rw [hfb] at h; cases h
  · intro urls v hl hg
    have hpri : github_keys.findSome? (fun key =>
        match urls.lookup key with
        | some v => if containsGithub v then some v else none
        | none => none) = some v := by
      simp [github_keys, List.findSome?_cons, hl, hg]
    simp [extract_github_url, hpri]
  · intro urls hall
    have hpri : github_keys.findSome? (fun key =>
        match urls.lookup key with
        | some v => if containsGithub v then some v else none
        | none => none) = none := by
      rw [List.findSome?_eq_none_iff]
      intro key _
      cases hk : urls.lookup key with
      | none => rfl
      | some v =>
        have hv := hall (key, v) (lookup_mem urls key v hk)
        simp at hv
        simp [hv]
    have hfb : urls.findSome? (fun kv =>
        if (kv.2 != "") && containsGithub kv.2 then some kv.2 else none) = none := by
      rw [List.findSome?_eq_none_iff]
      intro kv hkv
      have := hall kv hkv
      simp [this]
    unfold extract_github_url
    rw [hpri, hfb]

/-- Witness for C7: the head priority key `"GitHub"` (exact case) wins and
its value is returned query/fragment-stripped. -/
theorem C7_vcs_url_extraction_witness :
    extract_github_url [("GitHub", "https://github.com/acme/widget?tab=readme#top")] =
      some (stripQF "https://github.com/acme/widget?tab=readme#top") :=
  C7_vcs_url_extraction.2.2.1
    [("GitHub", "https://github.com/acme/widget?tab=readme#top")]
    "https://github.com/acme/widget?tab=readme#top" (by decide) (by decide)

/-- A links map whose only-case-differing key `"github"` would win a
case-insensitive priority scan. -/
def c7Urls : List (String × String) :=
  [("github", "https://github.com/first/first"),
   ("Homepage", "https://github.com/second/second")]

/-- Claim C7 counterexample: with keys `"github"` (lower case) and
`"Homepage"`, the source's exact-match priority scan skips `"github"` (the
priority list contains `"GitHub"`) and returns the `"Homepage"` value, while
the case-insensitive scan the claim describes would return the `"github"`
value — the two differ, so the key scan is not case-insensitive. -/
theorem C7_counterexample :
    extract_github_url c7Urls = some "https://github.com/second/second" ∧
    extract_github_url_ci c7Urls = some "https://github.com/first/first" ∧
    extract_github_url c7Urls ≠ extract_github_url_ci c7Urls :=
  ⟨by decide, by decide, by decide⟩

/-! ## Claim C4 -/

/-- Claim C4 (amended): the primary metadata fetch is the only fatal stage:
when it fails, the record carries `error`, `version` stays at the
`"N/A"` sentinel and no later stage (license, downloads, README, VCS stats)
is attempted; when it succeeds, `error` stays unset whatever the later
best-effort stages produce, and `version` equals the document's `version`
field when present — so it differs from the sentinel whenever the document
carries a version (but remains `"N/A"` when the fetched document lacks one;
see the counterexample, which refutes the unconditional claim). -/
theorem C4_primary_stage_gate :
    (∀ (env : StageResults) (name : String),
      env.primary = none →
      fetch_package_info env name =
        ({ PackageInfo.mkNew name with
            error := some ("Failed to fetch package information for " ++ name) },
         [Stage.primary]) ∧
      (fetch_package_info env name).1.version = "N/A" ∧
      Stage.license_page ∉ (fetch_package_info env name).2 ∧
      Stage.downloads ∉ (fetch_package_info env name).2 ∧
      Stage.readme ∉ (fetch_package_info env name).2 ∧
      Stage.github ∉ (fetch_package_info env name).2) ∧
    (∀ (env : StageResults) (name : String) (data : PyPIDoc),
      env.primary = some data →
      (fetch_package_info env name).1.error = none ∧
      (fetch_package_info env name).1.version = data.info.version.getD "N/A" ∧
      (∀ v, data.info.version = some v → v ≠ "N/A" →
        (fetch_package_info env name).1.version ≠ "N/A")) := by
  constructor
  · intro env name h
    refine ⟨?_, ?_, ?_, ?_, ?_, ?_⟩ <;>
      simp [fetch_package_info, h, PackageInfo.mkNew]
  · intro env name data h
    have hev : (fetch_package_info env name).1.error = none ∧
        (fetch_package_info env name).1.version = data.info.version.getD "N/A" := by
      simp only [fetch_package_info, h]
      split
      · constructor
        · simp [from_pypi_json, PackageInfo.mkNew]
        · simp [from_pypi_json, PackageInfo.mkNew]
      · constructor
        · simp [from_pypi_json, PackageInfo.mkNew]
        · simp [from_pypi_json, PackageInfo.mkNew]
    refine ⟨hev.1, hev.2, ?_⟩
    intro v hv hne
    rw [hev.2, hv]
    simpa using hne

/-- An environment whose primary fetch fails. -/
def c4FailEnv : StageResults := ⟨none, fun s => s, [], "", []⟩

/-- Witness for C4: a failed primary fetch yields the error record, the
version sentinel, and only the primary stage attempted. -/
theorem C4_primary_stage_gate_witness :
    fetch_package_info c4FailEnv "leftpad" =
      ({ PackageInfo.mkNew "leftpad" with
          error := some ("Failed to fetch package information for " ++ "leftpad") },
       [Stage.primary]) ∧
    (fetch_package_info c4FailEnv "leftpad").1.version = "N/A" ∧
    Stage.license_page ∉ (fetch_package_info c4FailEnv "leftpad").2 ∧
    Stage.downloads ∉ (fetch_package_info c4FailEnv "leftpad").2 ∧
    Stage.readme ∉ (fetch_package_info c4FailEnv "leftpad").2 ∧
    Stage.github ∉ (fetch_package_info c4FailEnv "leftpad").2 :=
  C4_primary_stage_gate.1 c4FailEnv "leftpad" rfl

/-- An environment whose primary fetch succeeds with a document that lacks
a `version` field. -/
def c4Env : StageResults := ⟨some ⟨PyPIInfo.empty, []⟩, fun s => s, [], "", []⟩

/-- Claim C4 counterexample: the primary-document fetch SUCCEEDS (the
environment supplies a document), yet the returned record's version is still
the unresolved sentinel `"N/A"` because the document carries no version
field — refuting the claim that a successful primary fetch always yields a
version different from the sentinel.  (`error` is unset, as the amended
claim states.) -/
theorem C4_counterexample :
    c4Env.primary.isSome = true ∧
    (fetch_package_info c4Env "pkg").1.version = "N/A" ∧
    (fetch_package_info c4Env "pkg").1.error = none :=
  ⟨rfl, rfl, rfl⟩

/-! ## Claim C1 -/

theorem analyze_name (pipeline : String → Except String PackageInfo)
    (hname : ∀ n p, pipeline n = Except.ok p → p.name = n) (n : String) :
    (analyze_single_package pipeline n).name = n := by
  unfold analyze_single_package
  cases hp : pipeline n with
  | ok p => exact hname n p hp
  | error e => rfl

/-- Claim C1 (confirmed): a bulk run produces exactly one record per input
identity — any completion order (`out` ranges over every permutation of the
scheduled results, which is where the worker pool's concurrency shows up)
has the input's length, and each identity occurs among the output record
names exactly as often as in the input (exactly once for duplicate-free
inputs).  An exception from one identity's pipeline is converted into a
record for that identity with `error` set to the exception's message, still
present in the output, and every sibling identity's record is exactly what
its own pipeline produced, unaffected.  The hypothesis `hname` records that
the real pipeline (`fetch_package_info`) always returns a record named after
its argument. -/
theorem C1_bulk_isolation
    (pipeline : String → Except String PackageInfo)
    (hname : ∀ n p, pipeline n = Except.ok p → p.name = n)
    (names : List String) (out : List PackageInfo)
    (hout : out.Perm (bulk_analyze pipeline names)) :
    out.length = names.length ∧
    (∀ id0 : String, (out.map PackageInfo.name).count id0 = names.count id0) ∧
    (∀ n msg, n ∈ names → pipeline n = Except.error msg →
      { PackageInfo.mkNew n with error := some msg } ∈ out) ∧
    (∀ n p, n ∈ names → pipeline n = Except.ok p → p ∈ out) := by
  have hmapname : (bulk_analyze pipeline names).map PackageInfo.name = names := by
    unfold bulk_analyze
    rw [List.map_map]
    calc names.map (PackageInfo.name ∘ analyze_single_package pipeline)
        = names.map id :=
          List.map_congr_left (fun n _ => analyze_name pipeline hname n)
      _ = names := List.map_id names
  refine ⟨?_, ?_, ?_, ?_⟩
  · rw [hout.length_eq]
    simp [bulk_analyze]
  · intro id0
    rw [(hout.map PackageInfo.name).count_eq id0, hmapname]
  · intro n msg hn hp
    have ha : analyze_single_package pipeline n =
        { PackageInfo.mkNew n with error := some msg } := by
      unfold analyze_single_package
      rw [hp]
    rw [hout.mem_iff, ← ha]
    exact List.mem_map_of_mem _ hn
  · intro n p hn hp
    have ha : analyze_single_package pipeline n = p := by
      unfold analyze_single_package
      rw [hp]
    rw [hout.mem_iff, ← ha]
    exact List.mem_map_of_mem _ hn

/-- A concrete pipeline for the C1 witness: `"badpkg"` raises, every other
identity succeeds with a fresh record. -/
def c1Pipeline : String → Except String PackageInfo := fun n =>
  if n = "badpkg" then Except.error "boom"
  else Except.ok (PackageInfo.mkNew n)

/-- Witness for C1 at a concrete input: three identities, one of which
raises; the run still yields three records, the faulting one carries the
message, the sibling record is untouched. -/
theorem C1_bulk_isolation_witness :
    (bulk_analyze c1Pipeline ["alpha", "badpkg", "beta"]).length =
      (["alpha", "badpkg", "beta"] : List String).length ∧
    { PackageInfo.mkNew "badpkg" with error := some "boom" } ∈
      bulk_analyze c1Pipeline ["alpha", "badpkg", "beta"] ∧
    PackageInfo.mkNew "alpha" ∈ bulk_analyze c1Pipeline ["alpha", "badpkg", "beta"] := by
  have hname : ∀ n p, c1Pipeline n = Except.ok p → p.name = n := by
    intro n p hp
    unfold c1Pipeline at hp
    by_cases h : n = "badpkg"
    · simp [h] at hp
    · simp [h] at hp
      rw [← hp]
      rfl
  have h := C1_bulk_isolation c1Pipeline hname ["alpha", "badpkg", "beta"]
    (bulk_analyze c1Pipeline ["alpha", "badpkg", "beta"]) (List.Perm.refl _)
  exact ⟨h.1, h.2.2.1 "badpkg" "boom" (by decide) (by decide),
         h.2.2.2 "alpha" (PackageInfo.mkNew "alpha") (by decide) (by decide)⟩
